import Mathlib

/-!
# Verification of the bioptim penalty-assembly and stochastic-OCP layer

Shallow embedding of:
* `bioptim/limits/penalty_helpers.py` (slice selection, multi-node index
  resolution, reshape/vertcat utilities),
* `bioptim/optimization/stochastic_optimal_control_program.py` (constructor
  guards and the explicit/implicit stochastic dynamics assemblers),
* `bioptim/examples/discrete_mechanics_and_optimal_control/holonomic_constraints.py`
  (the superimpose-markers holonomic constraint builder).

Matrices (numpy arrays and casadi SX/MX/DM) are modelled by a single record
holding the shape and the data in column-major order; a tag distinguishes the
numpy representation from the casadi one, since the Python code branches on
`isinstance`.
-/

namespace Bioptim

/-- A 2-D matrix: `rows × cols`, `data` stored column-major (entry `(i, j)` at
position `j * rows + i`).  Both numpy (with `order="F"`) and casadi store or
reshape column-major, so one carrier serves both. -/
structure Mat (α : Type) where
  rows : Nat
  cols : Nat
  data : List α
  deriving Repr, DecidableEq

/-- Column `j` of a matrix (the `rows` entries starting at `j * rows`). -/
def Mat.col {α : Type} (m : Mat α) (j : Nat) : List α :=
  (m.data.drop (j * m.rows)).take m.rows

/-- Vertical stacking of two matrices with the same number of columns
(`np.vstack` / casadi `vertcat`): column `j` of the result is column `j` of
`a` followed by column `j` of `b`. -/
def Mat.vstack2 {α : Type} (a b : Mat α) : Mat α :=
  ⟨a.rows + b.rows, a.cols,
    (List.range a.cols).flatMap (fun j => a.col j ++ b.col j)⟩

/-- Matrix transpose (`.T` on a numpy array), column-major reindexing. -/
def Mat.transpose {α : Type} [Inhabited α] (m : Mat α) : Mat α :=
  ⟨m.cols, m.rows,
    (List.range (m.rows * m.cols)).map
      (fun k => m.data.getD ((k / m.cols) + (k % m.cols) * m.rows) default)⟩

/-- A Python value reaching the reshape/vertcat utilities: a casadi matrix
(`SX`, `MX` or `DM`), a numpy array, or anything else (which those utilities
reject). -/
inductive PyVal (α : Type) where
  | casadi (m : Mat α)
  | nparr (m : Mat α)
  | other
  deriving Repr, DecidableEq

/-- The sub-node (sub-step) slice selectors the penalty helpers pass to the
decision callbacks: `slice(0, None)` (all sub-steps), `slice(-1, None)` (the
last sub-step), `slice(0, 1)` (the first sub-step). -/
inductive SubSlice where
  | allSteps
  | lastStep
  | firstStep
  deriving Repr, DecidableEq

/-- `QuadratureRule` members referenced by `penalty_helpers.py`; `default_`
stands for every other member of the enum. -/
inductive QuadratureRule where
  | default_
  | trapezoidal
  | approximate_trapezoidal
  deriving Repr, DecidableEq

/-- The `penalty.phase` attribute: an `int` in the usual case, or a `list`
(the helper rejects lists of more than one element). -/
inductive PhaseField where
  | single (p : Nat)
  | plist (l : List Nat)
  deriving Repr, DecidableEq

/-- `True` exactly when `isinstance(penalty.phase, list) and len(penalty.phase) > 1`. -/
def PhaseField.isMultiList : PhaseField → Bool
  | .single _ => false
  | .plist l => decide (l.length > 1)

/-- The attributes of a penalty record read by `PenaltyHelpers` and
`_get_multinode_indices`.  `target` is `None` or a list of arrays, each
modelled by its per-node 2-D slice `target[k][..., node_idx]`. -/
structure Penalty (α : Type) where
  phase : PhaseField
  node_idx : List Int
  integration_rule : QuadratureRule
  integrate : Bool
  derivative : Bool
  explicit_derivative : Bool
  transition : Bool
  multinode_penalty : Bool
  nodes_phase : List Nat
  multinode_idx : List Int
  target : Option (List (Nat → Mat α))
  weight : α

/-- `_reshape_to_vector`: casadi matrices via `m.reshape((-1, 1))`, numpy
arrays via `m.reshape((-1, 1), order="F")` — both column-major, so on this
carrier both keep `data` and set the shape to `(rows*cols, 1)`; any other
input raises `RuntimeError`. -/
def reshape_to_vector {α : Type} : PyVal α → Except String (PyVal α)
  | .casadi m => .ok (.casadi ⟨m.rows * m.cols, 1, m.data⟩)
  | .nparr m => .ok (.nparr ⟨m.rows * m.cols, 1, m.data⟩)
  | .other => .error "Invalid type to reshape"

/-- casadi's n-ary `vertcat` on two already-reshaped operands (as used inside
`PenaltyHelpers.states`); casadi coerces numpy operands to `DM`, so the result
is a casadi matrix whenever both operands are matrices. -/
def casadiVertcat2 {α : Type} : PyVal α → PyVal α → PyVal α
  | .casadi a, .casadi b => .casadi (a.vstack2 b)
  | .casadi a, .nparr b => .casadi (a.vstack2 b)
  | .nparr a, .casadi b => .casadi (a.vstack2 b)
  | .nparr a, .nparr b => .casadi (a.vstack2 b)
  | _, _ => .other

/-- The representation kind used by `_vertcat`'s `type(v[0])` /
`isinstance` consistency check. -/
def PyVal.sameKind {α : Type} : PyVal α → PyVal α → Bool
  | .casadi _, .casadi _ => true
  | .nparr _, .nparr _ => true
  | .other, .other => true
  | _, _ => false

/-- `_vertcat`: requires a (non-empty, since `v[0]` is read) list whose
elements all share the representation of the head, then dispatches to casadi
`vertcat` or `np.vstack`. -/
def pyVertcat {α : Type} : List (PyVal α) → Except String (PyVal α)
  | [] => .error "IndexError: list index out of range"
  | v₀ :: rest =>
    if (v₀ :: rest).all (fun tp => v₀.sameKind tp) then
      match v₀, rest with
      | .casadi m, _ =>
        .ok (.casadi ((rest.filterMap (fun x => match x with
          | .casadi mm => some mm | .nparr mm => some mm | .other => none)).foldl
            Mat.vstack2 m))
      | .nparr m, _ =>
        .ok (.nparr ((rest.filterMap (fun x => match x with
          | .casadi mm => some mm | .nparr mm => some mm | .other => none)).foldl
            Mat.vstack2 m))
      | .other, _ => .error "Invalid type to vertcat"
    else .error "All elements of the list must be of the same type"

/-- `_get_multinode_indices`: for a transition penalty, requires exactly two
declared phases and nodes and returns them reversed with sub-selectors
`(slice(-1, None), slice(0, 1))`; otherwise returns the declared lists with
every sub-selector `slice(0, 1)`. -/
def get_multinode_indices {α : Type} (penalty : Penalty α) :
    Except String (List Nat × List Int × List SubSlice) :=
  if penalty.transition then
    if penalty.nodes_phase.length ≠ 2 ∨ penalty.multinode_idx.length ≠ 2 then
      .error "Transition must have exactly 2 nodes and 2 phases"
    else
      .ok ([penalty.nodes_phase.getD 1 0, penalty.nodes_phase.getD 0 0],
           [penalty.multinode_idx.getD 1 0, penalty.multinode_idx.getD 0 0],
           [SubSlice.lastStep, SubSlice.firstStep])
  else
    .ok (penalty.nodes_phase, penalty.multinode_idx,
         List.replicate penalty.multinode_idx.length SubSlice.firstStep)

/-- Python list indexing `penalty.node_idx[index]` (non-negative index,
`IndexError` when out of range). -/
def pyIndex (l : List Int) (i : Nat) : Except String Int :=
  match l[i]? with
  | some x => .ok x
  | none => .error "IndexError: list index out of range"

/-- `PenaltyHelpers.states`: rejects multi-phase penalties, maps the penalty
node position through `node_idx` (`0` when `index is None`), then selects and
concatenates state slices according to the penalty kind. -/
def states {α : Type} (penalty : Penalty α) (index : Option Nat)
    (get_state_decision : PhaseField → Int → SubSlice → PyVal α)
    (is_constructing_penalty : Bool := false) : Except String (PyVal α) :=
  if penalty.phase.isMultiList then
    .error "NotImplementedError: penalty cost over multiple phases is not implemented yet"
  else
    match (match index with
           | none => Except.ok (0 : Int)
           | some i => pyIndex penalty.node_idx i) with
    | .error e => .error e
    | .ok idx =>
      if penalty.integration_rule = QuadratureRule.approximate_trapezoidal ∨
          penalty.integrate then
        match reshape_to_vector (get_state_decision penalty.phase idx SubSlice.allSteps) with
        | .error e => .error e
        | .ok x =>
          if is_constructing_penalty then
            match reshape_to_vector (get_state_decision penalty.phase idx SubSlice.lastStep) with
            | .error e => .error e
            | .ok xe => .ok (casadiVertcat2 x xe)
          else
            match reshape_to_vector
                (get_state_decision penalty.phase (idx + 1) SubSlice.firstStep) with
            | .error e => .error e
            | .ok xn => .ok (casadiVertcat2 x xn)
      else if penalty.derivative ∨ penalty.explicit_derivative then
        match reshape_to_vector (get_state_decision penalty.phase idx SubSlice.firstStep) with
        | .error e => .error e
        | .ok x0 =>
          match (if is_constructing_penalty then
                   reshape_to_vector (get_state_decision penalty.phase idx SubSlice.lastStep)
                 else
                   reshape_to_vector
                     (get_state_decision penalty.phase (idx + 1) SubSlice.firstStep)) with
          | .error e => .error e
          | .ok x1 =>
            if penalty.derivative then .ok (casadiVertcat2 x1 x0)
            else .ok (casadiVertcat2 x0 x1)
      else if penalty.transition ∨ penalty.multinode_penalty then
        match get_multinode_indices penalty with
        | .error e => .error e
        | .ok (phases, nodes, subnodes) =>
          match ((phases.zip nodes).zip subnodes).mapM
              (fun pns => reshape_to_vector
                (get_state_decision (PhaseField.single pns.1.1) pns.1.2 pns.2)) with
          | .error e => .error e
          | .ok xs => pyVertcat xs
      else
        reshape_to_vector (get_state_decision penalty.phase idx SubSlice.firstStep)

/-- `PenaltyHelpers.controls`: multinode/transition use the resolved
couplings; integrate/derivative/explicit-derivative fetch the whole node;
otherwise only the first sub-step. -/
def controls {α : Type} (penalty : Penalty α) (index : Option Nat)
    (get_control_decision : PhaseField → Int → SubSlice → PyVal α) :
    Except String (PyVal α) :=
  match (match index with
         | none => Except.ok (0 : Int)
         | some i => pyIndex penalty.node_idx i) with
  | .error e => .error e
  | .ok idx =>
    if penalty.transition ∨ penalty.multinode_penalty then
      match get_multinode_indices penalty with
      | .error e => .error e
      | .ok (phases, nodes, subnodes) =>
        match ((phases.zip nodes).zip subnodes).mapM
            (fun pns => reshape_to_vector
              (get_control_decision (PhaseField.single pns.1.1) pns.1.2 pns.2)) with
        | .error e => .error e
        | .ok us => pyVertcat us
    else if penalty.integrate ∨ penalty.derivative ∨ penalty.explicit_derivative then
      reshape_to_vector (get_control_decision penalty.phase idx SubSlice.allSteps)
    else
      reshape_to_vector (get_control_decision penalty.phase idx SubSlice.firstStep)

/-- `PenaltyHelpers.weight`. -/
def weight {α : Type} (penalty : Penalty α) : α := penalty.weight

/-- `PenaltyHelpers.target`: `np.array([])` when no target is configured;
for trapezoidal / approximate-trapezoidal integration the vertical stack of
the two per-node target slices, transposed; otherwise the single per-node
slice. -/
def target {α : Type} [Inhabited α] (penalty : Penalty α) (penalty_node_idx : Nat) :
    Except String (PyVal α) :=
  match penalty.target with
  | none => .ok (.nparr ⟨0, 0, []⟩)
  | some ts =>
    if penalty.integration_rule = QuadratureRule.approximate_trapezoidal ∨
        penalty.integration_rule = QuadratureRule.trapezoidal then
      match ts.get? 0, ts.get? 1 with
      | some t0, some t1 =>
        .ok (.nparr (((t0 penalty_node_idx).vstack2 (t1 penalty_node_idx)).transpose))
      | _, _ => .error "IndexError: list index out of range"
    else
      match ts.get? 0 with
      | some t0 => .ok (.nparr (t0 penalty_node_idx))
      | none => .error "IndexError: list index out of range"

/-! ## Stochastic optimal control program
(`optimization/stochastic_optimal_control_program.py`) -/

/-- The multi-node constraint functions the stochastic assemblers register. -/
inductive MnFcn where
  | m_equals_inverse_of_dg_dz
  | covariance_matrix_coninuity_implicit
  deriving Repr, DecidableEq

/-- The single-node constraint functions the implicit assembler registers. -/
inductive SnFcn where
  | covariance_matrix_coninuity_implicit
  | a_equals_df_dx
  | c_equals_df_dw
  deriving Repr, DecidableEq

/-- The node selector of a single-node constraint; the assemblers only use
`Node.ALL`. -/
inductive NodeSel where
  | all
  deriving Repr, DecidableEq

/-- One entry added to a `MultinodeConstraintList` by the assemblers:
the constraint function, the `(nodes_phase, nodes)` coupling, the dynamics
function identifier and the two noise magnitudes. -/
structure MnConstraint (α : Type) where
  fcn : MnFcn
  nodes_phase : Nat × Nat
  nodes : Int × Int
  dynamics : Option Nat
  wM_magnitude : α
  wS_magnitude : α
  deriving Repr, DecidableEq

/-- One entry added to a `ConstraintList` by the implicit assembler. -/
structure SnConstraint (α : Type) where
  fcn : SnFcn
  node : NodeSel
  phase : Nat
  wM_magnitude : α
  wS_magnitude : α
  deriving Repr, DecidableEq

/-- The per-phase data the assemblers read from `self.nlp`: the shooting
count `ns` and the phase's dynamics function (an identifier). -/
structure Nlp where
  ns : Nat
  dynamic_function : Nat
  deriving Repr, DecidableEq

/-- `_prepare_stochastic_dynamics_explicit`: for every phase, one
`M_EQUALS_INVERSE_OF_DG_DZ` multi-node constraint per node pair
`(i, i+1)` with `i < ns - 1`, plus, for every phase but the first, one
boundary constraint coupling node `-1` of the previous phase to node `0`
of this phase. -/
def prepare_stochastic_dynamics_explicit {α : Type} (nlps : List Nlp)
    (wM_magnitude wS_magnitude : α) : List (MnConstraint α) :=
  (nlps.enum).flatMap (fun pn =>
    let i_phase := pn.1
    let nlp := pn.2
    ((List.range (nlp.ns - 1)).map (fun i_node =>
      ⟨MnFcn.m_equals_inverse_of_dg_dz, (i_phase, i_phase),
        ((i_node : Int), (i_node : Int) + 1), some nlp.dynamic_function,
        wM_magnitude, wS_magnitude⟩)) ++
    (if i_phase > 0 then
      [⟨MnFcn.m_equals_inverse_of_dg_dz, (i_phase - 1, i_phase), (-1, 0),
        some nlp.dynamic_function, wM_magnitude, wS_magnitude⟩]
    else []))

/-- `_prepare_stochastic_dynamics_implicit`: the same M-consistency
multi-node constraints as the explicit assembler; then, in a second pass
over the phases, one `COVARIANCE_MATRIX_CONINUITY_IMPLICIT` single-node
constraint (at `Node.ALL`) per phase and one boundary covariance multi-node
constraint per phase but the first; then one `A_EQUALS_DF_DX` and one
`C_EQUALS_DF_DW` single-node constraint (at `Node.ALL`) per phase. -/
def prepare_stochastic_dynamics_implicit {α : Type} (nlps : List Nlp)
    (wM_magnitude wS_magnitude : α) :
    List (MnConstraint α) × List (SnConstraint α) :=
  let multi_node_penalties : List (MnConstraint α) :=
    (nlps.enum).flatMap (fun pn =>
      let i_phase := pn.1
      let nlp := pn.2
      ((List.range (nlp.ns - 1)).map (fun i_node =>
        ⟨MnFcn.m_equals_inverse_of_dg_dz, (i_phase, i_phase),
          ((i_node : Int), (i_node : Int) + 1), some nlp.dynamic_function,
          wM_magnitude, wS_magnitude⟩)) ++
      (if i_phase > 0 then
        [⟨MnFcn.m_equals_inverse_of_dg_dz, (i_phase - 1, i_phase), (-1, 0),
          some nlp.dynamic_function, wM_magnitude, wS_magnitude⟩]
      else [])) ++
    (nlps.enum).flatMap (fun pn =>
      let i_phase := pn.1
      if i_phase > 0 then
        [⟨MnFcn.covariance_matrix_coninuity_implicit, (i_phase - 1, i_phase),
          (-1, 0), none, wM_magnitude, wS_magnitude⟩]
      else [])
  let single_node_penalties : List (SnConstraint α) :=
    (nlps.enum).map (fun pn =>
      ⟨SnFcn.covariance_matrix_coninuity_implicit, NodeSel.all, pn.1,
        wM_magnitude, wS_magnitude⟩) ++
    (nlps.enum).map (fun pn =>
      ⟨SnFcn.a_equals_df_dx, NodeSel.all, pn.1, wM_magnitude, wS_magnitude⟩) ++
    (nlps.enum).map (fun pn =>
      ⟨SnFcn.c_equals_df_dw, NodeSel.all, pn.1, wM_magnitude, wS_magnitude⟩)
  (multi_node_penalties, single_node_penalties)

/-- Modelled from the spec: the expansion of a `Node.ALL` single-node
constraint into per-node instances is performed by the constraint pool
(`add_or_replace_to_penalty_pool`, not under `src/`); the spec states these
constraints are "applied at every node" of their phase, so a phase with `n`
nodes contributes `n` instances. -/
def expandSingleNode {α : Type} (nlps : List Nlp) (c : SnConstraint α) :
    List (SnFcn × Nat × Nat) :=
  match c.node with
  | NodeSel.all =>
    (List.range (nlps.getD c.phase ⟨0, 0⟩).ns).map (fun i => (c.fcn, c.phase, i))

/-- `True` for a multi-node constraint that couples two different phases
(a phase-boundary constraint). -/
def MnConstraint.isBoundary {α : Type} (c : MnConstraint α) : Bool :=
  c.nodes_phase.1 ≠ c.nodes_phase.2

/-- The keyword arguments of `StochasticOptimalControlProgram.__init__`
relevant to the constructor guards.  `n_threads` and
`assume_phase_dynamics` are declared parameters, so Python binds keywords
with those exact names to them; only keywords matching *no* declared
parameter land in `**kwargs` — in particular the guard key `"n_thread"`
(without the final `s`) can appear there, while `"assume_phase_dynamics"`
never can. -/
structure SocpArgs where
  n_threads : Int := 1
  assume_phase_dynamics : Bool := false
  kwargs_n_thread : Option Int := none

/-- The program attributes the constructor writes that the claims observe. -/
structure SocpState where
  n_threads : Int
  assume_phase_dynamics : Bool
  deriving Repr, DecidableEq

/-- `StochasticOptimalControlProgram.__init__`, restricted to the guard
logic and the attribute writes of lines 81–97: raises `ValueError` when
`kwargs["n_thread"]` exists and differs from 1, unconditionally sets
`self.n_threads = 1`, raises when `kwargs["assume_phase_dynamics"]` exists
and is truthy (impossible, as that key is a declared parameter and never
reaches `**kwargs`), and unconditionally sets
`self.assume_phase_dynamics = False`.  Modelled from the spec: the
remaining construction steps (`check_bioptim_version`, `set_original_values`,
`check_arguments_and_build_nlp`, penalty finalization — base-class code not
under `src/`) complete without touching these two attributes, as §5 of the
spec requires single-threaded, per-phase-dynamics construction. -/
def socpInit (args : SocpArgs) : Except String SocpState :=
  match args.kwargs_n_thread with
  | some v =>
    if v ≠ 1 then
      .error "ValueError: Multi-threading is not possible yet while solving a stochactic ocp."
    else
      -- self.n_threads = 1; "assume_phase_dynamics" in kwargs is always
      -- False (declared parameter), so that guard never fires;
      -- self.assume_phase_dynamics = False.
      .ok ⟨1, false⟩
  | none => .ok ⟨1, false⟩

/-! ## Holonomic constraint builder
(`examples/discrete_mechanics_and_optimal_control/holonomic_constraints.py`) -/

/-- A Python `slice(start, stop)` with non-negative bounds, as used for the
marker-component `index` argument (default `slice(0, 3)`). -/
structure MarkerSlice where
  start : Nat
  stop : Nat
  deriving Repr, DecidableEq

/-- `l[start:stop]` for non-negative bounds. -/
def MarkerSlice.apply {α : Type} (s : MarkerSlice) (l : List α) : List α :=
  (l.take s.stop).drop s.start

/-- The zero vector of length `n` (the `q̇ = 0`, `q̈ = 0` inputs). -/
def zeroVec (n : Nat) : List ℚ := List.replicate n 0

/-- Element-wise vector difference (`marker_1_sym - marker_2_sym`). -/
def vecSub (a b : List ℚ) : List ℚ := List.zipWith (· - ·) a b

/-- Element-wise vector sum (the `+` between the two products). -/
def vecAdd (a b : List ℚ) : List ℚ := List.zipWith (· + ·) a b

/-- Matrix–vector product (`@` between a jacobian and a column vector),
column-major data. -/
def matVecMul (m : Mat ℚ) (v : List ℚ) : List ℚ :=
  (List.range m.rows).map (fun i =>
    ((List.range m.cols).map (fun j =>
      m.data.getD (j * m.rows + i) 0 * v.getD j 0)).sum)

/-- The interface of the multibody model collaborator consumed by
`superimpose_markers`: marker name→index lookup and the marker position in
the global frame (a length-3 vector) as a function of `q`. -/
structure BioModelIface where
  nb_q : Nat
  nb_qdot : Nat
  marker_index : String → Nat
  marker : List ℚ → Nat → List ℚ

/-- `HolonomicConstraintFcn.superimpose_markers`: builds
`constraint(q)` (`(marker₁ − marker₂)[index]`, or `marker₁[index]` when no
second marker), `constraint_jacobian(q)` via the symbolic engine's automatic
differentiation, and
`constraint_double_derivative(q, q̇, q̈) = J(q) @ q̈ + J(q̇) @ q̇`, where the
second term evaluates the compiled jacobian function at the velocity
argument.  The jacobian operator `jac` belongs to the external
symbolic-expression collaborator and is passed in as a parameter; its shape
contract (`jac g q` has one row per component of `g q`) is a hypothesis of
the theorems. -/
def superimpose_markers (biorbd_model : BioModelIface)
    (jac : (List ℚ → List ℚ) → (List ℚ → Mat ℚ))
    (marker_1 : String) (marker_2 : Option String)
    (index : MarkerSlice := ⟨0, 3⟩) :
    (List ℚ → List ℚ) × (List ℚ → Mat ℚ) ×
      (List ℚ → List ℚ → List ℚ → List ℚ) :=
  let constraint : List ℚ → List ℚ := fun q_sym =>
    match marker_2 with
    | some m2 =>
      index.apply
        (vecSub (biorbd_model.marker q_sym (biorbd_model.marker_index marker_1))
                (biorbd_model.marker q_sym (biorbd_model.marker_index m2)))
    | none =>
      index.apply (biorbd_model.marker q_sym (biorbd_model.marker_index marker_1))
  let constraint_jacobian_func : List ℚ → Mat ℚ := jac constraint
  let constraint_double_derivative_func :
      List ℚ → List ℚ → List ℚ → List ℚ := fun q_sym q_dot_sym q_ddot_sym =>
    vecAdd (matVecMul (constraint_jacobian_func q_sym) q_ddot_sym)
           (matVecMul (constraint_jacobian_func q_dot_sym) q_dot_sym)
  (constraint, constraint_jacobian_func, constraint_double_derivative_func)

/-! ## Theorems -/

/-- `casadi.vertcat` applied to two well-formed reshaped column vectors
appends their data. -/
theorem casadiVertcat2_reshaped {α : Type} (A B : Mat α)
    (hA : A.data.length = A.rows * A.cols) (hB : B.data.length = B.rows * B.cols) :
    casadiVertcat2 (PyVal.casadi ⟨A.rows * A.cols, 1, A.data⟩)
        (PyVal.casadi ⟨B.rows * B.cols, 1, B.data⟩)
      = PyVal.casadi ⟨A.rows * A.cols + B.rows * B.cols, 1, A.data ++ B.data⟩ := by
  simp [casadiVertcat2, Mat.vstack2, Mat.col, ← hA, ← hB, List.range_succ]

/-- C1: for a transition penalty with two declared phases and nodes, the
multi-node index resolver returns the declared pairs reversed with
sub-selectors (last sub-step, first sub-step); for a non-transition
multinode penalty it returns the declared pairs in order, every
sub-selector being the first sub-step. -/
theorem C1_multinode_indices {α : Type} (penalty : Penalty α) :
    (penalty.transition = true →
      ∀ (p0 p1 : Nat) (n0 n1 : Int),
        penalty.nodes_phase = [p0, p1] → penalty.multinode_idx = [n0, n1] →
        get_multinode_indices penalty =
          .ok ([p1, p0], [n1, n0], [SubSlice.lastStep, SubSlice.firstStep])) ∧
    (penalty.transition = false → penalty.multinode_penalty = true →
      get_multinode_indices penalty =
        .ok (penalty.nodes_phase, penalty.multinode_idx,
          List.replicate penalty.multinode_idx.length SubSlice.firstStep)) := by
  constructor
  · intro ht p0 p1 n0 n1 hphases hnodes
    simp [get_multinode_indices, ht, hphases, hnodes]
  · intro ht _
    simp [get_multinode_indices, ht]

/-- A concrete transition penalty (phases `[2, 4]`, nodes `[5, 9]`). -/
def penTransition : Penalty Int :=
  ⟨PhaseField.single 0, [], QuadratureRule.default_, false, false, false,
    true, false, [2, 4], [5, 9], none, 0⟩

/-- A concrete multinode (non-transition) penalty (phases `[1, 2, 3]`,
nodes `[3, 4, 7]`). -/
def penMultinode : Penalty Int :=
  ⟨PhaseField.single 0, [], QuadratureRule.default_, false, false, false,
    false, true, [1, 2, 3], [3, 4, 7], none, 0⟩

/-- Witness for C1 at the two concrete penalties. -/
theorem C1_multinode_indices_witness :
    get_multinode_indices penTransition =
      .ok ([4, 2], [9, 5], [SubSlice.lastStep, SubSlice.firstStep]) ∧
    get_multinode_indices penMultinode =
      .ok ([1, 2, 3], [3, 4, 7],
        [SubSlice.firstStep, SubSlice.firstStep, SubSlice.firstStep]) :=
  ⟨(C1_multinode_indices penTransition).1 rfl 2 4 5 9 rfl rfl,
   by simpa using (C1_multinode_indices penMultinode).2 rfl rfl⟩

/-- C9: the reshape utility is the identity on a value that is already a
column vector (one column), for both the casadi and the numpy
representations; hence applying it twice equals applying it once. -/
theorem C9_reshape_idempotent {α : Type} (v : PyVal α) (m : Mat α)
    (hcol : m.cols = 1)
    (hv : v = PyVal.casadi m ∨ v = PyVal.nparr m) :
    reshape_to_vector v = Except.ok v ∧
    (reshape_to_vector v).bind reshape_to_vector = reshape_to_vector v := by
  have h1 : reshape_to_vector v = Except.ok v := by
    rcases hv with hv | hv <;> subst hv <;> cases m <;>
      simp_all [reshape_to_vector]
  exact ⟨h1, by rw [h1, Except.bind, h1]⟩

/-- Witness for C9 on a concrete 3×1 numpy column vector. -/
theorem C9_reshape_idempotent_witness :
    reshape_to_vector (PyVal.nparr (⟨3, 1, [10, 20, 30]⟩ : Mat Int)) =
      Except.ok (PyVal.nparr ⟨3, 1, [10, 20, 30]⟩) ∧
    (reshape_to_vector (PyVal.nparr (⟨3, 1, [10, 20, 30]⟩ : Mat Int))).bind
        reshape_to_vector =
      reshape_to_vector (PyVal.nparr (⟨3, 1, [10, 20, 30]⟩ : Mat Int)) :=
  C9_reshape_idempotent (PyVal.nparr ⟨3, 1, [10, 20, 30]⟩) ⟨3, 1, [10, 20, 30]⟩
    rfl (Or.inr rfl)

/-- C8: `target` on a penalty with no configured target returns the empty
(length-zero) vector, for every node index. -/
theorem C8_empty_target {α : Type} [Inhabited α] (penalty : Penalty α)
    (node_idx : Nat) (h : penalty.target = none) :
    target penalty node_idx = .ok (PyVal.nparr ⟨0, 0, ([] : List α)⟩) := by
  simp [target, h]

/-- Witness for C8 at a concrete penalty and node index 7. -/
theorem C8_empty_target_witness :
    target penTransition 7 = .ok (PyVal.nparr ⟨0, 0, ([] : List Int)⟩) :=
  C8_empty_target penTransition 7 rfl

/-- A penalty with TRAPEZOIDAL integration rule but `integrate = False` and
every kind flag off: the `states` branch test reads
`integration_rule in (QuadratureRule.APPROXIMATE_TRAPEZOIDAL,) or integrate`,
so this penalty takes the plain branch. -/
def penTrapNoIntegrate : Penalty Int :=
  ⟨PhaseField.single 0, [0], QuadratureRule.trapezoidal, false, false, false,
    false, false, [], [], none, 0⟩

/-- A state-decision callback whose per-(node, slice) values are pairwise
distinct 1×1 matrices, to tell the fetched slices apart. -/
def fDistinct : PhaseField → Int → SubSlice → PyVal Int := fun _ n s =>
  PyVal.casadi ⟨1, 1, [3 * n + (match s with
    | SubSlice.allSteps => 0
    | SubSlice.lastStep => 1
    | SubSlice.firstStep => 2)]⟩

/-- C2 counterexample: on a penalty whose integration rule is TRAPEZOIDAL
(with `integrate = False`), `states` does *not* return the concatenation of
the full current node with the first sub-step of the next node (the value
the claim predicts here is `⟨2, 1, [0, 5]⟩`); it returns the plain-branch
single first sub-step instead. -/
theorem C2_trapezoidal_counterexample :
    states penTrapNoIntegrate (some 0) fDistinct false =
      .ok (PyVal.casadi ⟨1, 1, [2]⟩) ∧
    states penTrapNoIntegrate (some 0) fDistinct false ≠
      .ok (PyVal.casadi ⟨2, 1, [0, 5]⟩) := by
  refine ⟨rfl, fun h => ?_⟩
  rw [show states penTrapNoIntegrate (some 0) fDistinct false =
    .ok (PyVal.casadi ⟨1, 1, [2]⟩) from rfl] at h
  simp at h

/-- C2 (amended): for every penalty whose integration rule is
APPROXIMATE_TRAPEZOIDAL or whose `integrate` flag is set (a TRAPEZOIDAL rule
alone does not select this branch) and whose phase is not a multi-element
list, `states` returns the full current node (all sub-steps) vertically
concatenated with the first sub-step of the next node when
`is_constructing_penalty` is false, and with the last sub-step of the
current node when it is true. -/
theorem C2_integrated_states {α : Type} (penalty : Penalty α)
    (f : PhaseField → Int → SubSlice → PyVal α) (i : Nat) (n : Int)
    (A B C : Mat α)
    (hml : penalty.phase.isMultiList = false)
    (hrule : penalty.integration_rule = QuadratureRule.approximate_trapezoidal ∨
      penalty.integrate = true)
    (hidx : penalty.node_idx[i]? = some n)
    (hA : f penalty.phase n SubSlice.allSteps = PyVal.casadi A)
    (hB : f penalty.phase (n + 1) SubSlice.firstStep = PyVal.casadi B)
    (hC : f penalty.phase n SubSlice.lastStep = PyVal.casadi C)
    (hlA : A.data.length = A.rows * A.cols)
    (hlB : B.data.length = B.rows * B.cols)
    (hlC : C.data.length = C.rows * C.cols) :
    states penalty (some i) f false =
      .ok (PyVal.casadi ⟨A.rows * A.cols + B.rows * B.cols, 1, A.data ++ B.data⟩) ∧
    states penalty (some i) f true =
      .ok (PyVal.casadi ⟨A.rows * A.cols + C.rows * C.cols, 1, A.data ++ C.data⟩) := by
  have eB := casadiVertcat2_reshaped A B hlA hlB
  have eC := casadiVertcat2_reshaped A C hlA hlC
  constructor <;>
    simp [states, hml, pyIndex, hidx, hrule, hA, hB, hC, reshape_to_vector,
      eB, eC]

/-- A penalty taking the integrated branch via APPROXIMATE_TRAPEZOIDAL,
whose `node_idx` maps penalty position 0 to node 4. -/
def penApproxTrap : Penalty Int :=
  ⟨PhaseField.single 0, [4], QuadratureRule.approximate_trapezoidal, false,
    false, false, false, false, [], [], none, 0⟩

/-- Witness for C2 at a concrete penalty and callback. -/
theorem C2_integrated_states_witness :
    states penApproxTrap (some 0) fDistinct false =
      .ok (PyVal.casadi ⟨2, 1, [12, 17]⟩) ∧
    states penApproxTrap (some 0) fDistinct true =
      .ok (PyVal.casadi ⟨2, 1, [12, 13]⟩) := by
  have h := C2_integrated_states penApproxTrap fDistinct 0 4
    ⟨1, 1, [12]⟩ ⟨1, 1, [17]⟩ ⟨1, 1, [13]⟩ rfl (Or.inl rfl) rfl rfl rfl rfl
    rfl rfl rfl
  simpa using h

/-- C7: for a derivative-flagged penalty `states` concatenates (second
slice, first sub-step of current node) — later before earlier — where the
second slice is the next node's first sub-step (not constructing) or the
current node's last sub-step (constructing); for an
explicit-derivative-flagged penalty the same two slices are concatenated in
the opposite order (earlier before later). -/
theorem C7_derivative_states {α : Type} (penalty : Penalty α)
    (f : PhaseField → Int → SubSlice → PyVal α) (i : Nat) (n : Int)
    (A B C : Mat α)
    (hml : penalty.phase.isMultiList = false)
    (hnr : penalty.integration_rule ≠ QuadratureRule.approximate_trapezoidal)
    (hni : penalty.integrate = false)
    (hidx : penalty.node_idx[i]? = some n)
    (hA : f penalty.phase n SubSlice.firstStep = PyVal.casadi A)
    (hB : f penalty.phase (n + 1) SubSlice.firstStep = PyVal.casadi B)
    (hC : f penalty.phase n SubSlice.lastStep = PyVal.casadi C)
    (hlA : A.data.length = A.rows * A.cols)
    (hlB : B.data.length = B.rows * B.cols)
    (hlC : C.data.length = C.rows * C.cols) :
    (penalty.derivative = true →
      states penalty (some i) f false =
        .ok (PyVal.casadi
          ⟨B.rows * B.cols + A.rows * A.cols, 1, B.data ++ A.data⟩) ∧
      states penalty (some i) f true =
        .ok (PyVal.casadi
          ⟨C.rows * C.cols + A.rows * A.cols, 1, C.data ++ A.data⟩)) ∧
    (penalty.derivative = false → penalty.explicit_derivative = true →
      states penalty (some i) f false =
        .ok (PyVal.casadi
          ⟨A.rows * A.cols + B.rows * B.cols, 1, A.data ++ B.data⟩) ∧
      states penalty (some i) f true =
        .ok (PyVal.casadi
          ⟨A.rows * A.cols + C.rows * C.cols, 1, A.data ++ C.data⟩)) := by
  have eBA := casadiVertcat2_reshaped B A hlB hlA
  have eCA := casadiVertcat2_reshaped C A hlC hlA
  have eAB := casadiVertcat2_reshaped A B hlA hlB
  have eAC := casadiVertcat2_reshaped A C hlA hlC
  constructor
  · intro hd
    constructor <;>
      simp [states, hml, pyIndex, hidx, hnr, hni, hd, hA, hB, hC,
        reshape_to_vector, eBA, eCA]
  · intro hd he
    constructor <;>
      simp [states, hml, pyIndex, hidx, hnr, hni, hd, he, hA, hB, hC,
        reshape_to_vector, eAB, eAC]

/-- A derivative-flagged penalty with `node_idx` mapping position 0 to
node 4. -/
def penDerivative : Penalty Int :=
  ⟨PhaseField.single 0, [4], QuadratureRule.default_, false, true, false,
    false, false, [], [], none, 0⟩

/-- An explicit-derivative-flagged penalty with the same node mapping. -/
def penExplicitDerivative : Penalty Int :=
  ⟨PhaseField.single 0, [4], QuadratureRule.default_, false, false, true,
    false, false, [], [], none, 0⟩

/-- Witness for C7 at two concrete penalties and a concrete callback. -/
theorem C7_derivative_states_witness :
    (states penDerivative (some 0) fDistinct false =
        .ok (PyVal.casadi ⟨2, 1, [17, 14]⟩) ∧
      states penDerivative (some 0) fDistinct true =
        .ok (PyVal.casadi ⟨2, 1, [13, 14]⟩)) ∧
    (states penExplicitDerivative (some 0) fDistinct false =
        .ok (PyVal.casadi ⟨2, 1, [14, 17]⟩) ∧
      states penExplicitDerivative (some 0) fDistinct true =
        .ok (PyVal.casadi ⟨2, 1, [14, 13]⟩)) := by
  have h1 := (C7_derivative_states penDerivative fDistinct 0 4
    ⟨1, 1, [14]⟩ ⟨1, 1, [17]⟩ ⟨1, 1, [13]⟩ rfl (by decide) rfl rfl rfl rfl
    rfl rfl rfl rfl).1 rfl
  have h2 := (C7_derivative_states penExplicitDerivative fDistinct 0 4
    ⟨1, 1, [14]⟩ ⟨1, 1, [17]⟩ ⟨1, 1, [13]⟩ rfl (by decide) rfl rfl rfl rfl
    rfl rfl rfl rfl).2 rfl rfl
  constructor
  · simpa using h1
  · simpa using h2

/-- C4: on a one-phase explicit stochastic problem with 5 nodes, the
explicit assembler emits exactly the 4 intra-phase M-consistency multi-node
constraints, one per consecutive node pair, and no phase-boundary
constraint. -/
theorem C4_explicit_assembler {α : Type} (wM wS : α) (d : Nat) :
    prepare_stochastic_dynamics_explicit [⟨5, d⟩] wM wS =
      [⟨MnFcn.m_equals_inverse_of_dg_dz, (0, 0), (0, 1), some d, wM, wS⟩,
       ⟨MnFcn.m_equals_inverse_of_dg_dz, (0, 0), (1, 2), some d, wM, wS⟩,
       ⟨MnFcn.m_equals_inverse_of_dg_dz, (0, 0), (2, 3), some d, wM, wS⟩,
       ⟨MnFcn.m_equals_inverse_of_dg_dz, (0, 0), (3, 4), some d, wM, wS⟩] ∧
    (prepare_stochastic_dynamics_explicit [⟨5, d⟩] wM wS).countP
      (fun c => c.isBoundary) = 0 :=
  ⟨rfl, rfl⟩

/-- C3: on a two-phase implicit stochastic problem (4 nodes, then 3 nodes),
the implicit assembler emits 5 intra-phase M-consistency constraints
(3 + 2), 1 boundary M-consistency constraint, 1 boundary
covariance-continuity constraint, and — after expanding `Node.ALL` — 4 + 3
single-node constraints of each of the covariance-continuity, A = ∂f/∂x and
C = ∂f/∂w kinds. -/
theorem C3_implicit_assembler {α : Type} (wM wS : α) (d0 d1 : Nat) :
    ((prepare_stochastic_dynamics_implicit [⟨4, d0⟩, ⟨3, d1⟩] wM wS).1.countP
      (fun c => decide (c.fcn = MnFcn.m_equals_inverse_of_dg_dz) &&
        !c.isBoundary) = 5) ∧
    ((prepare_stochastic_dynamics_implicit [⟨4, d0⟩, ⟨3, d1⟩] wM wS).1.countP
      (fun c => decide (c.fcn = MnFcn.m_equals_inverse_of_dg_dz) &&
        c.isBoundary) = 1) ∧
    ((prepare_stochastic_dynamics_implicit [⟨4, d0⟩, ⟨3, d1⟩] wM wS).1.countP
      (fun c => decide (c.fcn = MnFcn.covariance_matrix_coninuity_implicit) &&
        c.isBoundary) = 1) ∧
    ((prepare_stochastic_dynamics_implicit [⟨4, d0⟩, ⟨3, d1⟩] wM wS).1.countP
      (fun c => decide (c.fcn = MnFcn.covariance_matrix_coninuity_implicit) &&
        !c.isBoundary) = 0) ∧
    (∀ fcn : SnFcn,
      ((prepare_stochastic_dynamics_implicit [⟨4, d0⟩, ⟨3, d1⟩] wM wS).2.flatMap
        (expandSingleNode [⟨4, d0⟩, ⟨3, d1⟩])).countP
          (fun t => decide (t.1 = fcn) && decide (t.2.1 = 0)) = 4 ∧
      ((prepare_stochastic_dynamics_implicit [⟨4, d0⟩, ⟨3, d1⟩] wM wS).2.flatMap
        (expandSingleNode [⟨4, d0⟩, ⟨3, d1⟩])).countP
          (fun t => decide (t.1 = fcn) && decide (t.2.1 = 1)) = 3) := by
  refine ⟨rfl, rfl, rfl, rfl, fun fcn => ?_⟩
  cases fcn <;> exact ⟨rfl, rfl⟩

/-- C5: neither `n_threads ≠ 1` nor `assume_phase_dynamics = True`, passed
through their declared keyword parameters, makes the constructor raise —
both guard keys are looked up in `**kwargs`, where `"assume_phase_dynamics"`
can never appear (it is a declared parameter) and `"n_thread"` appears only
when the caller misspells the parameter name; that misspelled key is the
only way to trigger the `ValueError`. -/
theorem C5_construction_does_not_raise (n_threads : Int)
    (assume_phase_dynamics : Bool) :
    socpInit { n_threads := n_threads,
               assume_phase_dynamics := assume_phase_dynamics } =
      .ok ⟨1, false⟩ ∧
    socpInit { kwargs_n_thread := some 4 } =
      .error "ValueError: Multi-threading is not possible yet while solving a stochactic ocp." :=
  ⟨rfl, rfl⟩

/-- C10: every construction that completes leaves `n_threads = 1` and
`assume_phase_dynamics = False`, whatever the caller supplied — both
attributes are unconditionally overwritten before the problem is built. -/
theorem C10_attributes_overwritten (args : SocpArgs) (s : SocpState)
    (h : socpInit args = .ok s) :
    s.n_threads = 1 ∧ s.assume_phase_dynamics = false := by
  unfold socpInit at h
  split at h
  · split at h
    · cases h
    · cases h
      exact ⟨rfl, rfl⟩
  · cases h
    exact ⟨rfl, rfl⟩

/-- Witness for C10 at a construction called with `n_threads = 4` and
`assume_phase_dynamics = True`. -/
theorem C10_attributes_overwritten_witness :
    (⟨1, false⟩ : SocpState).n_threads = 1 ∧
    (⟨1, false⟩ : SocpState).assume_phase_dynamics = false :=
  C10_attributes_overwritten
    { n_threads := 4, assume_phase_dynamics := true } ⟨1, false⟩ rfl

/-- Reading any position of the zero vector with default 0 gives 0. -/
theorem zeroVec_getD (n j : Nat) : (zeroVec n)[j]?.getD 0 = 0 := by
  unfold zeroVec
  rw [List.getElem?_replicate]
  split <;> rfl

/-- A matrix applied to the zero vector gives the zero vector of its row
count. -/
theorem matVecMul_zeroVec (M : Mat ℚ) (n : Nat) :
    matVecMul M (zeroVec n) = List.replicate M.rows 0 := by
  unfold matVecMul
  refine List.eq_replicate_iff.mpr ⟨by simp, fun b hb => ?_⟩
  simp only [List.mem_map, List.mem_range] at hb
  obtain ⟨i, _, rfl⟩ := hb
  simp [zeroVec_getD]

/-- C6: the double-derivative function built by `superimpose_markers` is
`J(q) @ q̈ + J(q̇) @ q̇` with the compiled jacobian evaluated at the velocity
in the second term; consequently, for a two-marker constraint with
`index = slice(0, 3)`, at `q̇ = 0` and `q̈ = 0` it returns the zero vector
of length 3, for every `q`.  The hypotheses are the external collaborators'
contracts: markers are 3-vectors and automatic differentiation returns one
jacobian row per constraint component. -/
theorem C6_double_derivative (model : BioModelIface)
    (jac : (List ℚ → List ℚ) → (List ℚ → Mat ℚ))
    (m1 m2 : String) (q qd qdd : List ℚ)
    (hmark : ∀ (qv : List ℚ) (i : Nat), (model.marker qv i).length = 3)
    (hjac : ∀ (g : List ℚ → List ℚ) (v : List ℚ),
      (jac g v).rows = (g v).length) :
    (superimpose_markers model jac m1 (some m2) ⟨0, 3⟩).2.2 q qd qdd =
      vecAdd
        (matVecMul ((superimpose_markers model jac m1 (some m2) ⟨0, 3⟩).2.1 q) qdd)
        (matVecMul ((superimpose_markers model jac m1 (some m2) ⟨0, 3⟩).2.1 qd) qd) ∧
    (superimpose_markers model jac m1 (some m2) ⟨0, 3⟩).2.2 q
      (zeroVec model.nb_qdot) (zeroVec model.nb_qdot) = [0, 0, 0] := by
  constructor
  · rfl
  · show vecAdd
      (matVecMul (jac _ q) (zeroVec model.nb_qdot))
      (matVecMul (jac _ (zeroVec model.nb_qdot)) (zeroVec model.nb_qdot)) = [0, 0, 0]
    rw [matVecMul_zeroVec, matVecMul_zeroVec, hjac, hjac]
    have hlen : ∀ v : List ℚ,
        ((MarkerSlice.mk 0 3).apply
          (vecSub (model.marker v (model.marker_index m1))
                  (model.marker v (model.marker_index m2)))).length = 3 := by
      intro v
      simp [MarkerSlice.apply, vecSub, hmark]
    rw [hlen, hlen]
    simp [vecAdd, List.replicate_succ]

/-- A concrete multibody-model interface: two generalized coordinates, all
markers at `(1, 2, 3)`. -/
def cModel : BioModelIface :=
  ⟨2, 2, fun _ => 0, fun _ _ => [1, 2, 3]⟩

/-- A concrete jacobian operator honouring the AD shape contract (one row
per output component, no columns). -/
def cJac : (List ℚ → List ℚ) → (List ℚ → Mat ℚ) :=
  fun g v => ⟨(g v).length, 0, []⟩

/-- Witness for C6 at the concrete model and jacobian operator. -/
theorem C6_double_derivative_witness :
    (superimpose_markers cModel cJac "m1" (some "m2") ⟨0, 3⟩).2.2 [1, 1] [0, 1] [2, 3] =
      vecAdd
        (matVecMul ((superimpose_markers cModel cJac "m1" (some "m2") ⟨0, 3⟩).2.1 [1, 1]) [2, 3])
        (matVecMul ((superimpose_markers cModel cJac "m1" (some "m2") ⟨0, 3⟩).2.1 [0, 1]) [0, 1]) ∧
    (superimpose_markers cModel cJac "m1" (some "m2") ⟨0, 3⟩).2.2 [1, 1]
      (zeroVec cModel.nb_qdot) (zeroVec cModel.nb_qdot) = [0, 0, 0] :=
  C6_double_derivative cModel cJac "m1" "m2" [1, 1] [0, 1] [2, 3]
    (fun _ _ => rfl) (fun _ _ => rfl)

end Bioptim
